import Mathlib

/-!
Formal model of the flooow library (src/lib/video-decoder.ts and
src/lib/flooow.ts), together with proofs about its ByteWriter byte buffer,
its AVC codec-configuration extractor, and its scrub transition
controller.

JavaScript numbers are modelled exactly where the verified claims need
them: integer coercions (ToUint8 / ToUint16) are explicit modular
reductions, and the controller arithmetic uses a sum type JSNum with
NaN, plus/minus infinity and exact rational values, mirroring the IEEE
comparison and propagation rules used by the source (isNaN, <, <=,
Math.abs, Math.min, Math.max, multiplication).
-/

/-- Errors a ByteWriter operation can raise: the explicit size check in
getData throws the mismatch Error, while an out-of-bounds
TypedArray.prototype.set throws a RangeError. -/
inductive WriterError where
  | sizeMismatch : WriterError
  | rangeError : WriterError
deriving DecidableEq, Repr

/-- The ByteWriter of video-decoder.ts: a fixed-size byte buffer (data),
a write cursor (idx) and the declared capacity (size). -/
structure ByteWriter where
  data : List Nat
  idx : Nat
  size : Nat
deriving DecidableEq, Repr

/-- JavaScript ToUint8 coercion applied by Uint8Array element stores. -/
def toUint8 (v : Int) : Nat := (v % 256).toNat

/-- JavaScript ToUint16 coercion applied by Uint16Array element stores. -/
def toUint16 (v : Int) : Nat := (v % 65536).toNat

/-- TypedArray.prototype.set: copies src into target at offset, and
throws a RangeError when the copy would run past the end of target. -/
def typedArraySet (target : List Nat) (src : List Nat) (offset : Nat) :
    Except WriterError (List Nat) :=
  if offset + src.length > target.length then .error .rangeError
  else .ok (target.take offset ++ src ++ target.drop (offset + src.length))

/-- new ByteWriter(size): zero-filled buffer, cursor at 0. -/
def ByteWriter.new (size : Nat) : ByteWriter :=
  { data := List.replicate size 0, idx := 0, size := size }

/-- getData(): throws the size mismatch Error when idx differs from the
declared size, otherwise returns data.slice(0, idx). -/
def ByteWriter.getData (w : ByteWriter) : Except WriterError (List Nat) :=
  if w.idx ≠ w.size then .error .sizeMismatch
  else .ok (w.data.take w.idx)

/-- writeUint8(value): data.set([value], idx); idx += 1. -/
def ByteWriter.writeUint8 (w : ByteWriter) (value : Int) : Except WriterError ByteWriter := do
  let d ← typedArraySet w.data [toUint8 value] w.idx
  .ok { data := d, idx := w.idx + 1, size := w.size }

/-- The two bytes of the backing buffer of a one-element Uint16Array
holding value, in host byte order (low byte first on a little-endian
host). -/
def hostBytes16 (littleEndianHost : Bool) (value : Int) : List Nat :=
  let u := toUint16 value
  if littleEndianHost then [u % 256, u / 256] else [u / 256, u % 256]

/-- writeUint16(value): stores value into a Uint16Array, aliases its
backing buffer as bytes in host order, then writes buffer[1] followed
by buffer[0]; idx += 2. -/
def ByteWriter.writeUint16 (w : ByteWriter) (littleEndianHost : Bool) (value : Int) :
    Except WriterError ByteWriter := do
  let buffer := hostBytes16 littleEndianHost value
  let d ← typedArraySet w.data [buffer.getD 1 0, buffer.getD 0 0] w.idx
  .ok { data := d, idx := w.idx + 2, size := w.size }

/-- writeUint8Array(value): data.set(value, idx); idx += value.length.
The source array is itself a Uint8Array, so no element coercion
happens. -/
def ByteWriter.writeUint8Array (w : ByteWriter) (value : List Nat) :
    Except WriterError ByteWriter := do
  let d ← typedArraySet w.data value w.idx
  .ok { data := d, idx := w.idx + value.length, size := w.size }

/-- The pair of bytes the ByteWriter emits for a 16-bit write: the host
order bytes swapped. -/
def emitted16 (littleEndianHost : Bool) (value : Int) : List Nat :=
  let u := toUint16 value
  if littleEndianHost then [u / 256, u % 256] else [u % 256, u / 256]

-- List helper lemmas used to reason about sequential buffer writes.

theorem listTakeAppendLen {α : Type} (l₁ l₂ : List α) :
    (l₁ ++ l₂).take l₁.length = l₁ := by
  induction l₁ with
  | nil => simp
  | cons a t ih => simp [ih]

theorem listDropAppendLen {α : Type} (l₁ l₂ : List α) (k : Nat) :
    (l₁ ++ l₂).drop (l₁.length + k) = l₂.drop k := by
  induction l₁ with
  | nil => simp
  | cons a t ih => simpa [Nat.succ_add] using ih

theorem listDropReplicate {α : Type} (a : α) :
    ∀ n k, (List.replicate n a).drop k = List.replicate (n - k) a := by
  intro n
  induction n with
  | zero => intro k; simp
  | succ n ih =>
    intro k
    cases k with
    | zero => simp
    | succ k => simpa [List.replicate_succ] using ih k

/-- A ByteWriter in canonical form: a written prefix followed by the
untouched zero fill, cursor at the end of the prefix. -/
def wcanon (written : List Nat) (size : Nat) : ByteWriter :=
  { data := written ++ List.replicate (size - written.length) 0,
    idx := written.length, size := size }

theorem wcanon_data_length (written : List Nat) (size : Nat)
    (h : written.length ≤ size) : (wcanon written size).data.length = size := by
  simp [wcanon]
  omega

theorem typedArraySet_canon (written src : List Nat) (size : Nat)
    (h : written.length + src.length ≤ size) :
    typedArraySet (wcanon written size).data src written.length
      = .ok ((wcanon (written ++ src) size).data) := by
  have hlen : (wcanon written size).data.length = size :=
    wcanon_data_length written size (by omega)
  unfold typedArraySet
  rw [hlen]
  rw [if_neg (by omega)]
  congr 1
  have htake : (wcanon written size).data.take written.length = written := by
    simpa [wcanon] using
      listTakeAppendLen written (List.replicate (size - written.length) 0)
  have hdrop : (wcanon written size).data.drop (written.length + src.length)
      = List.replicate (size - (written.length + src.length)) 0 := by
    simp only [wcanon]
    rw [listDropAppendLen written _ src.length, listDropReplicate]
    congr 1
    omega
  rw [htake, hdrop]
  simp [wcanon]

theorem writeUint8_canon (written : List Nat) (size : Nat) (v : Int)
    (h : written.length + 1 ≤ size) :
    (wcanon written size).writeUint8 v = .ok (wcanon (written ++ [toUint8 v]) size) := by
  have hset := typedArraySet_canon written [toUint8 v] size (by simpa using h)
  simp only [ByteWriter.writeUint8, wcanon] at hset ⊢
  rw [hset]
  simp only [List.length_append, List.length_cons, List.length_nil]
  rfl

theorem writeUint16_canon (written : List Nat) (size : Nat)
    (little : Bool) (v : Int) (h : written.length + 2 ≤ size) :
    (wcanon written size).writeUint16 little v
      = .ok (wcanon (written ++ emitted16 little v) size) := by
  have hemit : [(hostBytes16 little v).getD 1 0, (hostBytes16 little v).getD 0 0]
      = emitted16 little v := by
    cases little <;> simp [hostBytes16, emitted16]
  have hlen : (emitted16 little v).length = 2 := by
    cases little <;> simp [emitted16]
  have hset := typedArraySet_canon written (emitted16 little v) size (by omega)
  simp only [ByteWriter.writeUint16, wcanon] at hset ⊢
  rw [hemit, hset]
  simp only [List.length_append, hlen]
  rfl

theorem writeUint8Array_canon (written arr : List Nat) (size : Nat)
    (h : written.length + arr.length ≤ size) :
    (wcanon written size).writeUint8Array arr
      = .ok (wcanon (written ++ arr) size) := by
  have hset := typedArraySet_canon written arr size h
  simp only [ByteWriter.writeUint8Array, wcanon] at hset ⊢
  rw [hset]
  simp only [List.length_append]
  rfl

theorem getData_canon (written : List Nat) (size : Nat)
    (h : written.length = size) :
    (wcanon written size).getData = .ok written := by
  subst h
  simp [ByteWriter.getData, wcanon]

/-- One parameter-set entry of an avcC box (mp4box exposes each SPS or
PPS NAL unit as a record with a length field and the raw payload). -/
structure NalUnit where
  length : Int
  data : List Nat
deriving DecidableEq, Repr

/-- The avcC box fields read by getExtradata. -/
structure AvccBox where
  configurationVersion : Int
  AVCProfileIndication : Int
  profile_compatibility : Int
  AVCLevelIndication : Int
  lengthSizeMinusOne : Int
  nb_SPS_nalus : Int
  nb_PPS_nalus : Int
  SPS : List NalUnit
  PPS : List NalUnit
deriving DecidableEq, Repr

/-- The for loops of getExtradata that write, for each parameter-set
entry, a 2-byte length followed by the raw payload. -/
def writeNalUnits (little : Bool) (units : List NalUnit) (w : ByteWriter) :
    Except WriterError ByteWriter :=
  units.foldlM (fun w u => do
    let w ← w.writeUint16 little u.length
    w.writeUint8Array u.data) w

/-- getExtradata of video-decoder.ts: computes the total size, then
emits version, profile, compatibility and level bytes, the
length-size byte with its marker bits, the SPS count byte with its
marker bits, each SPS entry, the PPS count byte and each PPS entry,
and finally reads the buffer out. -/
def getExtradata (little : Bool) (avccBox : AvccBox) :
    Except WriterError (List Nat) := do
  let size : Int :=
    avccBox.PPS.foldl (fun acc u => acc + (2 + u.length))
      (avccBox.SPS.foldl (fun acc u => acc + (2 + u.length)) 7)
  let writer := ByteWriter.new size.toNat
  let writer ← writer.writeUint8 avccBox.configurationVersion
  let writer ← writer.writeUint8 avccBox.AVCProfileIndication
  let writer ← writer.writeUint8 avccBox.profile_compatibility
  let writer ← writer.writeUint8 avccBox.AVCLevelIndication
  let writer ← writer.writeUint8 (avccBox.lengthSizeMinusOne + 63 * 4)
  let writer ← writer.writeUint8 (avccBox.nb_SPS_nalus + 7 * 32)
  let writer ← writeNalUnits little avccBox.SPS writer
  let writer ← writer.writeUint8 avccBox.nb_PPS_nalus
  let writer ← writeNalUnits little avccBox.PPS writer
  writer.getData

/-- A parameter-set entry is well formed when its length field agrees
with its payload. -/
def NalUnit.WF (u : NalUnit) : Prop := u.length = u.data.length

instance (u : NalUnit) : Decidable u.WF := by
  unfold NalUnit.WF; infer_instance

/-- An avcC box is well formed when every entry is. -/
def AvccBox.WF (b : AvccBox) : Prop :=
  (∀ u ∈ b.SPS, u.WF) ∧ (∀ u ∈ b.PPS, u.WF)

instance (b : AvccBox) : Decidable b.WF := by
  unfold AvccBox.WF; infer_instance

/-- Byte count an entry list contributes to the output. -/
def nalUnitsSize (units : List NalUnit) : Nat :=
  (units.map (fun u => 2 + u.data.length)).sum

/-- The bytes an entry list contributes to the output. -/
def nalUnitsBytes (little : Bool) (units : List NalUnit) : List Nat :=
  units.foldr (fun u acc => emitted16 little u.length ++ u.data ++ acc) []

/-- Size of the output as the specification states it. -/
def specExtradataSize (b : AvccBox) : Nat :=
  7 + nalUnitsSize b.SPS + nalUnitsSize b.PPS

theorem sizeFold_eq (units : List NalUnit) (hwf : ∀ u ∈ units, u.WF) :
    ∀ init : Int,
      units.foldl (fun acc u => acc + (2 + u.length)) init
        = init + nalUnitsSize units := by
  induction units with
  | nil => intro init; simp [nalUnitsSize]
  | cons u t ih =>
    intro init
    have hu : u.length = u.data.length := hwf u (by simp)
    have ht : ∀ x ∈ t, x.WF := fun x hx => hwf x (by simp [hx])
    rw [List.foldl_cons, ih ht]
    simp [nalUnitsSize, hu]
    ring

theorem nalUnitsBytes_length (little : Bool) (units : List NalUnit) :
    (nalUnitsBytes little units).length = nalUnitsSize units := by
  induction units with
  | nil => simp [nalUnitsBytes, nalUnitsSize]
  | cons u t ih =>
    have h2 : (emitted16 little u.length).length = 2 := by
      cases little <;> simp [emitted16]
    simp [nalUnitsBytes, nalUnitsSize, h2] at ih ⊢
    omega

theorem exceptBindOk {α β γ : Type} (a : α) (f : α → Except γ β) :
    (Except.ok a >>= f) = f a := rfl

theorem writeNalUnits_canon (little : Bool) (units : List NalUnit) :
    ∀ written : List Nat, ∀ size : Nat,
      written.length + nalUnitsSize units ≤ size →
      writeNalUnits little units (wcanon written size)
        = .ok (wcanon (written ++ nalUnitsBytes little units) size) := by
  induction units with
  | nil =>
    intro written size h
    simp only [writeNalUnits, List.foldlM_nil, nalUnitsBytes, List.foldr_nil,
      List.append_nil]
    rfl
  | cons u t ih =>
    intro written size h
    have h2 : (emitted16 little u.length).length = 2 := by
      cases little <;> simp [emitted16]
    have hsz : nalUnitsSize (u :: t) = 2 + u.data.length + nalUnitsSize t := by
      simp [nalUnitsSize]
    rw [hsz] at h
    have h16 : written.length + 2 ≤ size := by omega
    have harr : (written ++ emitted16 little u.length).length + u.data.length ≤ size := by
      simp [h2]
      omega
    have hrest :
        ((written ++ emitted16 little u.length) ++ u.data).length + nalUnitsSize t ≤ size := by
      simp [h2]
      omega
    simp only [writeNalUnits, List.foldlM_cons]
    rw [writeUint16_canon written size little u.length h16]
    rw [exceptBindOk]
    rw [writeUint8Array_canon (written ++ emitted16 little u.length) u.data size harr]
    rw [exceptBindOk]
    have := ih ((written ++ emitted16 little u.length) ++ u.data) size hrest
    simp only [writeNalUnits] at this
    rw [this]
    simp [nalUnitsBytes, List.append_assoc]

/-- The exact byte sequence getExtradata produces for a well-formed
box. -/
def extradataBytes (little : Bool) (b : AvccBox) : List Nat :=
  [toUint8 b.configurationVersion, toUint8 b.AVCProfileIndication,
   toUint8 b.profile_compatibility, toUint8 b.AVCLevelIndication,
   toUint8 (b.lengthSizeMinusOne + 63 * 4), toUint8 (b.nb_SPS_nalus + 7 * 32)]
  ++ nalUnitsBytes little b.SPS
  ++ [toUint8 b.nb_PPS_nalus]
  ++ nalUnitsBytes little b.PPS

theorem extradataBytes_length (little : Bool) (b : AvccBox) :
    (extradataBytes little b).length = specExtradataSize b := by
  simp [extradataBytes, nalUnitsBytes_length, specExtradataSize]
  omega

theorem getExtradata_ok (little : Bool) (b : AvccBox) (hwf : b.WF) :
    getExtradata little b = .ok (extradataBytes little b) := by
  obtain ⟨hS, hP⟩ := hwf
  simp only [getExtradata]
  rw [sizeFold_eq b.SPS hS 7]
  rw [sizeFold_eq b.PPS hP (7 + (nalUnitsSize b.SPS : Int))]
  have hNat : ((7 : Int) + (nalUnitsSize b.SPS : Int) + (nalUnitsSize b.PPS : Int)).toNat
      = 7 + nalUnitsSize b.SPS + nalUnitsSize b.PPS := by omega
  rw [hNat]
  set N := 7 + nalUnitsSize b.SPS + nalUnitsSize b.PPS with hNdef
  have hnew : ByteWriter.new N = wcanon [] N := by
    simp [ByteWriter.new, wcanon]
  rw [hnew]
  rw [writeUint8_canon [] N b.configurationVersion (by simp; omega)]
  rw [exceptBindOk]
  simp only [List.nil_append]
  rw [writeUint8_canon [toUint8 b.configurationVersion] N b.AVCProfileIndication
    (by simp; omega)]
  rw [exceptBindOk]
  simp only [List.singleton_append, List.cons_append, List.nil_append]
  rw [writeUint8_canon [toUint8 b.configurationVersion, toUint8 b.AVCProfileIndication]
    N b.profile_compatibility (by simp; omega)]
  rw [exceptBindOk]
  simp only [List.singleton_append, List.cons_append, List.nil_append]
  rw [writeUint8_canon [toUint8 b.configurationVersion, toUint8 b.AVCProfileIndication,
    toUint8 b.profile_compatibility] N b.AVCLevelIndication (by simp; omega)]
  rw [exceptBindOk]
  simp only [List.singleton_append, List.cons_append, List.nil_append]
  rw [writeUint8_canon [toUint8 b.configurationVersion, toUint8 b.AVCProfileIndication,
    toUint8 b.profile_compatibility, toUint8 b.AVCLevelIndication] N
    (b.lengthSizeMinusOne + 63 * 4) (by simp; omega)]
  rw [exceptBindOk]
  simp only [List.singleton_append, List.cons_append, List.nil_append]
  rw [writeUint8_canon [toUint8 b.configurationVersion, toUint8 b.AVCProfileIndication,
    toUint8 b.profile_compatibility, toUint8 b.AVCLevelIndication,
    toUint8 (b.lengthSizeMinusOne + 63 * 4)] N
    (b.nb_SPS_nalus + 7 * 32) (by simp; omega)]
  rw [exceptBindOk]
  simp only [List.singleton_append, List.cons_append, List.nil_append]
  rw [writeNalUnits_canon little b.SPS [toUint8 b.configurationVersion,
    toUint8 b.AVCProfileIndication, toUint8 b.profile_compatibility,
    toUint8 b.AVCLevelIndication, toUint8 (b.lengthSizeMinusOne + 63 * 4),
    toUint8 (b.nb_SPS_nalus + 7 * 32)] N (by simp; omega)]
  rw [exceptBindOk]
  rw [writeUint8_canon ([toUint8 b.configurationVersion,
    toUint8 b.AVCProfileIndication, toUint8 b.profile_compatibility,
    toUint8 b.AVCLevelIndication, toUint8 (b.lengthSizeMinusOne + 63 * 4),
    toUint8 (b.nb_SPS_nalus + 7 * 32)] ++ nalUnitsBytes little b.SPS) N
    b.nb_PPS_nalus (by simp [nalUnitsBytes_length]; omega)]
  rw [exceptBindOk]
  rw [writeNalUnits_canon little b.PPS (([toUint8 b.configurationVersion,
    toUint8 b.AVCProfileIndication, toUint8 b.profile_compatibility,
    toUint8 b.AVCLevelIndication, toUint8 (b.lengthSizeMinusOne + 63 * 4),
    toUint8 (b.nb_SPS_nalus + 7 * 32)] ++ nalUnitsBytes little b.SPS)
    ++ [toUint8 b.nb_PPS_nalus]) N (by simp [nalUnitsBytes_length]; omega)]
  rw [exceptBindOk]
  rw [getData_canon _ N (by simp [nalUnitsBytes_length]; omega)]
  simp [extradataBytes, List.append_assoc]

/-- A JavaScript number as the controller uses it: NaN, one of the two
infinities, or an exact finite value. The finite values occurring in
the verified claims are representable exactly, so rationals model
them faithfully. -/
inductive JSNum where
  | nan : JSNum
  | posInf : JSNum
  | negInf : JSNum
  | num : Rat → JSNum
deriving DecidableEq, Repr

/-- The global isNaN test (on an already numeric value). -/
def JSNum.isNaN : JSNum → Bool
  | .nan => true
  | _ => false

/-- isFinite: true exactly on the finite values. -/
def JSNum.isFinite : JSNum → Bool
  | .num _ => true
  | _ => false

/-- IEEE subtraction as JavaScript performs it. -/
def JSNum.sub : JSNum → JSNum → JSNum
  | .nan, _ => .nan
  | _, .nan => .nan
  | .posInf, .posInf => .nan
  | .posInf, _ => .posInf
  | .negInf, .negInf => .nan
  | .negInf, _ => .negInf
  | .num _, .posInf => .negInf
  | .num _, .negInf => .posInf
  | .num a, .num b => .num (a - b)

/-- IEEE multiplication as JavaScript performs it. -/
def JSNum.mul : JSNum → JSNum → JSNum
  | .nan, _ => .nan
  | _, .nan => .nan
  | .posInf, .posInf => .posInf
  | .posInf, .negInf => .negInf
  | .posInf, .num a => if a > 0 then .posInf else if a < 0 then .negInf else .nan
  | .negInf, .posInf => .negInf
  | .negInf, .negInf => .posInf
  | .negInf, .num a => if a > 0 then .negInf else if a < 0 then .posInf else .nan
  | .num a, .posInf => if a > 0 then .posInf else if a < 0 then .negInf else .nan
  | .num a, .negInf => if a > 0 then .negInf else if a < 0 then .posInf else .nan
  | .num a, .num b => .num (a * b)

/-- Math.abs. -/
def JSNum.abs : JSNum → JSNum
  | .nan => .nan
  | .posInf => .posInf
  | .negInf => .posInf
  | .num a => .num |a|

/-- The strict less-than comparison: false whenever NaN is involved. -/
def JSNum.lt : JSNum → JSNum → Bool
  | .nan, _ => false
  | _, .nan => false
  | .posInf, _ => false
  | .negInf, .negInf => false
  | .negInf, _ => true
  | .num _, .posInf => true
  | .num _, .negInf => false
  | .num a, .num b => a < b

/-- The non-strict comparison: false whenever NaN is involved. -/
def JSNum.le : JSNum → JSNum → Bool
  | .nan, _ => false
  | _, .nan => false
  | .posInf, .posInf => true
  | .posInf, _ => false
  | .negInf, _ => true
  | .num _, .posInf => true
  | .num _, .negInf => false
  | .num a, .num b => a ≤ b

/-- Strict triple-equals on numbers: false whenever NaN is involved,
structural otherwise. -/
def JSNum.eq : JSNum → JSNum → Bool
  | .nan, _ => false
  | _, .nan => false
  | .posInf, .posInf => true
  | .negInf, .negInf => true
  | .num a, .num b => a == b
  | _, _ => false

/-- Math.min of two values: NaN if either argument is NaN. -/
def jsMin (a b : JSNum) : JSNum :=
  if a.isNaN || b.isNaN then .nan
  else if JSNum.lt a b then a else b

/-- Math.max of two values: NaN if either argument is NaN. -/
def jsMax (a b : JSNum) : JSNum :=
  if a.isNaN || b.isNaN then .nan
  else if JSNum.lt b a then a else b

/-- Math.floor. -/
def JSNum.floor : JSNum → JSNum
  | .nan => .nan
  | .posInf => .posInf
  | .negInf => .negInf
  | .num a => .num (Rat.floor a : Int)

/-- Fixed tunable of the Flooow class: transitionSpeed = 8. -/
def transitionSpeed : JSNum := .num 8

/-- Fixed tunable of the Flooow class: frameThreshold = 0.1. -/
def frameThreshold : JSNum := .num (1 / 10)

/-- Observable state of one Flooow instance together with the video
element properties the controller reads and writes and the callbacks
currently scheduled with the animation-frame scheduler. pendingRafs
holds the ids of scheduled continuations that have been neither run
nor cancelled; the environment will execute each of them. -/
structure FlooowState where
  videoProgress : JSNum
  currentTime : JSNum
  targetTime : JSNum
  videoCurrentTime : JSNum
  videoPaused : Bool
  videoPlaybackRate : JSNum
  videoDuration : JSNum
  frameRate : JSNum
  hasCanvas : Bool
  isSafari : Bool
  lastPaintArg : JSNum
  transitioningRaf : Option Nat
  pendingRafs : List Nat
  nextRafId : Nat
  windowResizeListener : Bool
  wrapperCleared : Bool
deriving DecidableEq, Repr

/-- requestAnimationFrame: registers a continuation under a fresh id
and returns that id. -/
def rafRequest (s : FlooowState) : FlooowState × Nat :=
  ({ s with pendingRafs := s.pendingRafs ++ [s.nextRafId],
            nextRafId := s.nextRafId + 1 }, s.nextRafId)

/-- cancelAnimationFrame: deregisters the continuation with the given
id. -/
def rafCancel (s : FlooowState) (id : Nat) : FlooowState :=
  { s with pendingRafs := s.pendingRafs.filter (fun x => x ≠ id) }

/-- The stop test an update step evaluates first: the target is NaN,
or the remaining gap is below frameThreshold, or the position has
reached or passed the target in the direction the session captured. -/
def stopCondition (isForwardTransition : Bool) (s : FlooowState) : Bool :=
  let hasPassedThreshold :=
    if isForwardTransition then JSNum.le s.targetTime s.currentTime
    else JSNum.le s.currentTime s.targetTime
  s.targetTime.isNaN
    || JSNum.lt (JSNum.abs (JSNum.sub s.targetTime s.currentTime)) frameThreshold
    || hasPassedThreshold

/-- One update step of the transition loop: the tick closure inside
playVideoTo. isForwardTransition is the direction captured when the
session started. -/
def tick (isForwardTransition : Bool) (s : FlooowState) : FlooowState :=
  if stopCondition isForwardTransition s then
    let s1 := { s with videoPaused := true }
    match s1.transitioningRaf with
    | some id => { rafCancel s1 id with transitioningRaf := none }
    | none => s1
  else
    let s1 :=
      if JSNum.lt s.videoDuration s.targetTime then
        { s with targetTime := s.videoDuration }
      else s
    let s2 :=
      if JSNum.lt s1.targetTime (.num 0) then { s1 with targetTime := .num 0 }
      else s1
    let transitionForward := JSNum.sub s2.targetTime s2.currentTime
    let s3 :=
      if s2.hasCanvas then
        let sa := { s2 with currentTime := s2.targetTime }
        { sa with lastPaintArg := JSNum.floor (JSNum.mul sa.currentTime sa.frameRate) }
      else if s2.isSafari || !isForwardTransition then
        { s2 with videoPaused := true, currentTime := s2.targetTime,
                  videoCurrentTime := s2.targetTime }
      else
        let playbackRate :=
          jsMax (jsMin (jsMin (JSNum.mul transitionForward (.num 4)) transitionSpeed)
            (.num 16)) (.num 1)
        let sa :=
          if !playbackRate.isNaN then
            { s2 with videoPlaybackRate := playbackRate, videoPaused := false }
          else s2
        { sa with currentTime := sa.videoCurrentTime }
    let p := rafRequest s3
    { p.1 with transitioningRaf := some p.2 }

/-- playVideoTo: computes the transition direction from the current
state and schedules the first animation frame of a new session.
Returns the updated state and the direction flag the session closure
captured. -/
def playVideoTo (s : FlooowState) : FlooowState × Bool :=
  let diff := JSNum.sub s.targetTime s.currentTime
  let isForwardTransition := JSNum.lt (.num 0) diff
  let p := rafRequest s
  ({ p.1 with transitioningRaf := some p.2 }, isForwardTransition)

/-- setVideoProgress: returns the state unchanged when the progress
triple-equals the stored one; otherwise stores the progress, records
the live video position, derives the target time and starts a new
session. -/
def setVideoProgress (s : FlooowState) (progress : JSNum) : FlooowState :=
  if JSNum.eq s.videoProgress progress then s
  else
    let s1 := { s with videoProgress := progress }
    let s2 := { s1 with currentTime := s1.videoCurrentTime }
    let s3 := { s2 with targetTime := JSNum.mul s2.videoProgress s2.videoDuration }
    (playVideoTo s3).1

/-- destroy: removes the window resize listener and clears the wrapper
markup. It touches nothing else. -/
def destroy (s : FlooowState) : FlooowState :=
  { s with windowResizeListener := false, wrapperCleared := true }

/-- Outcome of the awaited decodeVideo(src, emitFrame, debug) call:
either the promise rejects, or it resolves after having emitted the
given number of frames. -/
inductive DecodeOutcome where
  | failure : DecodeOutcome
  | success : Nat → DecodeOutcome
deriving DecidableEq, Repr

/-- Observable result of running the private decodeVideo method of the
Flooow class. -/
structure DecodeRun where
  frames : Nat
  onReadyCalls : Nat
  canvasCreated : Bool
  videoReloaded : Bool
  initialFramePainted : Bool
deriving DecidableEq, Repr

/-- The private decodeVideo method: returns early when useWebCodec is
disabled or no src is set; on a rejected decode resets the frames and
reloads the video; fires onReady (when provided) and returns if no
frames arrived; otherwise builds the canvas, paints frame 0 and fires
onReady (when provided). -/
def decodeVideoRun (useWebCodec : Bool) (srcSet : Bool) (hasOnReady : Bool)
    (outcome : DecodeOutcome) : DecodeRun :=
  if !useWebCodec then
    { frames := 0, onReadyCalls := 0, canvasCreated := false,
      videoReloaded := false, initialFramePainted := false }
  else if !srcSet then
    { frames := 0, onReadyCalls := 0, canvasCreated := false,
      videoReloaded := false, initialFramePainted := false }
  else
    match outcome with
    | .failure =>
      { frames := 0, onReadyCalls := if hasOnReady then 1 else 0,
        canvasCreated := false, videoReloaded := true,
        initialFramePainted := false }
    | .success k =>
      if k = 0 then
        { frames := 0, onReadyCalls := if hasOnReady then 1 else 0,
          canvasCreated := false, videoReloaded := false,
          initialFramePainted := false }
      else
        { frames := k, onReadyCalls := if hasOnReady then 1 else 0,
          canvasCreated := true, videoReloaded := false,
          initialFramePainted := true }

/-- Claim C10: for every integer input v, the two-byte write silently
reduces v modulo 2^16 before emission — values at least 65536 and
negative values are truncated by the unsigned 16-bit coercion rather
than rejected — so the emitted pair of bytes always encodes v modulo
2^16 (most significant byte first on a little-endian host). -/
theorem writeUint16_coerces_mod_65536 (little : Bool) (v : Int) (w : ByteWriter) :
    w.writeUint16 little v = w.writeUint16 little (v % 65536)
    ∧ ∀ (written : List Nat) (size : Nat), written.length + 2 ≤ size →
        (wcanon written size).writeUint16 true v
          = .ok (wcanon
              (written ++ [(v % 65536).toNat / 256, (v % 65536).toNat % 256]) size) := by
  constructor
  · have h16 : toUint16 (v % 65536) = toUint16 v := by
      unfold toUint16
      congr 1
      omega
    unfold ByteWriter.writeUint16 hostBytes16
    rw [h16]
  · intro written size h
    rw [writeUint16_canon written size true v h]
    have e : emitted16 true v = [(v % 65536).toNat / 256, (v % 65536).toNat % 256] := by
      simp [emitted16, toUint16]
    rw [e]

/-- Witness for claim C10 at v = -1: the write succeeds and emits the
bytes of 65535. -/
theorem writeUint16_coerces_mod_65536_witness :
    (wcanon [] 2).writeUint16 true (-1) = .ok (wcanon [255, 255] 2) := by
  have h := (writeUint16_coerces_mod_65536 true (-1) (wcanon [] 2)).2 [] 2 (by decide)
  have e : ([] : List Nat) ++ [((-1 : Int) % 65536).toNat / 256,
      ((-1 : Int) % 65536).toNat % 256] = [255, 255] := by decide
  rw [e] at h
  exact h

/-- Claim C3 counterexample: on a big-endian host, writing the value 1
emits [1, 0] — least significant byte first — not the big-endian pair
[0, 1]; the emission depends on host endianness. -/
theorem writeUint16_not_endian_agnostic :
    (wcanon [] 2).writeUint16 false 1 = .ok (wcanon [1, 0] 2)
    ∧ wcanon [1, 0] 2 ≠ wcanon [0, 1] 2 :=
  ⟨rfl, by decide⟩

/-- Claim C3 (amended): the two-byte write emits the byte-swap of the
host-order representation: on a little-endian host — every mainstream
JavaScript engine — a value in [0, 65535] goes out most significant
byte first and the cursor advances by 2; on a big-endian host the same
code would emit the low byte first. -/
theorem writeUint16_msb_first_on_little_endian_host (v : Nat) (hv : v < 65536)
    (written : List Nat) (size : Nat) (h : written.length + 2 ≤ size) :
    (wcanon written size).writeUint16 true (v : Int)
      = .ok (wcanon (written ++ [v / 256, v % 256]) size)
    ∧ (wcanon (written ++ [v / 256, v % 256]) size).idx
        = (wcanon written size).idx + 2
    ∧ (wcanon written size).writeUint16 false (v : Int)
      = .ok (wcanon (written ++ [v % 256, v / 256]) size) := by
  have hu : toUint16 (v : Int) = v := by
    unfold toUint16
    omega
  have e1 : emitted16 true (v : Int) = [v / 256, v % 256] := by
    simp [emitted16, hu]
  have e2 : emitted16 false (v : Int) = [v % 256, v / 256] := by
    simp [emitted16, hu]
  refine ⟨?_, ?_, ?_⟩
  · rw [writeUint16_canon written size true (v : Int) h, e1]
  · simp [wcanon]
  · rw [writeUint16_canon written size false (v : Int) h, e2]

/-- Witness for claim C3 at v = 258: the emission on a little-endian
host is [1, 2]. -/
theorem writeUint16_msb_first_witness :
    (wcanon [] 4).writeUint16 true 258 = .ok (wcanon [1, 2] 4) := by
  have h := (writeUint16_msb_first_on_little_endian_host 258 (by decide)
    [] 4 (by decide)).1
  simpa using h

/-- Claim C5 counterexample: after filling a capacity-1 writer, one
more byte write fails with the TypedArray RangeError at the write call
itself — not with the SizeMismatch error that finalize raises. -/
theorem writer_overflow_rangeError_not_sizeMismatch :
    (ByteWriter.new 1).writeUint8 7 = .ok (wcanon [7] 1)
    ∧ (wcanon [7] 1).writeUint8 8 = .error .rangeError
    ∧ WriterError.rangeError ≠ WriterError.sizeMismatch :=
  ⟨rfl, rfl, by decide⟩

/-- Claim C5 (amended): finalize returns the written region when the
cursor equals the declared capacity, and raises SizeMismatch when it
differs (under-fill); an attempted overflow fails at the write call
itself with a bounds RangeError before the cursor advances, so it
never reaches finalize. -/
theorem writer_size_discipline (written : List Nat) (size : Nat) (v : Int)
    (hle : written.length ≤ size) :
    (written.length = size → (wcanon written size).getData = .ok written)
    ∧ (written.length ≠ size → (wcanon written size).getData = .error .sizeMismatch)
    ∧ (written.length = size → (wcanon written size).writeUint8 v = .error .rangeError) := by
  refine ⟨fun h => getData_canon written size h, fun h => ?_, fun h => ?_⟩
  · simp [ByteWriter.getData, wcanon, h]
  · have hlen : (wcanon written size).data.length = size :=
      wcanon_data_length written size hle
    simp only [ByteWriter.writeUint8, typedArraySet, hlen]
    rw [if_pos (by simp [wcanon]; omega)]
    rfl

/-- Witness for claim C5: under-fill raises SizeMismatch, exact fill
finalizes, overflow raises RangeError. -/
theorem writer_size_discipline_witness :
    (wcanon [3] 2).getData = .error .sizeMismatch
    ∧ (wcanon [3, 4] 2).getData = .ok [3, 4]
    ∧ (wcanon [3, 4] 2).writeUint8 5 = .error .rangeError := by
  refine ⟨(writer_size_discipline [3] 2 0 (by decide)).2.1 (by decide),
    (writer_size_discipline [3, 4] 2 0 (by decide)).1 rfl,
    (writer_size_discipline [3, 4] 2 5 (by decide)).2.2 rfl⟩

/-- An avcC box holding exactly one SPS entry and one PPS entry whose
length fields agree with their payloads. -/
def mkSingleBox (vv pp cc ll ls nbS nbP : Nat) (sps pps : List Nat) : AvccBox :=
  { configurationVersion := (vv : Int), AVCProfileIndication := (pp : Int),
    profile_compatibility := (cc : Int), AVCLevelIndication := (ll : Int),
    lengthSizeMinusOne := (ls : Int), nb_SPS_nalus := (nbS : Int),
    nb_PPS_nalus := (nbP : Int),
    SPS := [{ length := (sps.length : Int), data := sps }],
    PPS := [{ length := (pps.length : Int), data := pps }] }

/-- Claim C6: for every well-formed parameter record the extractor
output length equals 7 plus the sum of 2 + len over the SPS entries
plus the same sum over the PPS entries; and for a record with one SPS
entry of length n and one PPS entry of length m, reading the emitted
bytes back recovers the version, profile, compatibility and level
scalars and both payloads byte-for-byte at their specified offsets. -/
theorem getExtradata_size_and_roundtrip :
    (∀ (little : Bool) (b : AvccBox), b.WF →
       ∃ out, getExtradata little b = .ok out ∧ out.length = specExtradataSize b)
    ∧ (∀ (vv pp cc ll ls nbS nbP : Nat) (sps pps : List Nat),
        vv < 256 → pp < 256 → cc < 256 → ll < 256 →
        sps.length < 65536 → pps.length < 65536 →
        ∃ out,
          getExtradata true (mkSingleBox vv pp cc ll ls nbS nbP sps pps) = .ok out
          ∧ out.length = 7 + (2 + sps.length) + (2 + pps.length)
          ∧ out.take 4 = [vv, pp, cc, ll]
          ∧ 256 * out.getD 6 0 + out.getD 7 0 = sps.length
          ∧ (out.drop 8).take sps.length = sps
          ∧ 256 * ((out.drop 8).drop sps.length).getD 1 0
              + ((out.drop 8).drop sps.length).getD 2 0 = pps.length
          ∧ ((out.drop 8).drop sps.length).drop 3 = pps) := by
  constructor
  · intro little b hwf
    exact ⟨_, getExtradata_ok little b hwf, extradataBytes_length little b⟩
  · intro vv pp cc ll ls nbS nbP sps pps hv hp hc hl hns hnp
    have t0 : toUint8 (vv : Int) = vv := by unfold toUint8; omega
    have t1 : toUint8 (pp : Int) = pp := by unfold toUint8; omega
    have t2 : toUint8 (cc : Int) = cc := by unfold toUint8; omega
    have t3 : toUint8 (ll : Int) = ll := by unfold toUint8; omega
    have u1 : toUint16 (sps.length : Int) = sps.length := by unfold toUint16; omega
    have u2 : toUint16 (pps.length : Int) = pps.length := by unfold toUint16; omega
    have e1 : emitted16 true (sps.length : Int) = [sps.length / 256, sps.length % 256] := by
      simp [emitted16, u1]
    have e2 : emitted16 true (pps.length : Int) = [pps.length / 256, pps.length % 256] := by
      simp [emitted16, u2]
    have hwf : (mkSingleBox vv pp cc ll ls nbS nbP sps pps).WF := by
      constructor <;> intro u hu <;> simp [mkSingleBox] at hu <;>
        subst hu <;> simp [NalUnit.WF]
    have hsh : extradataBytes true (mkSingleBox vv pp cc ll ls nbS nbP sps pps)
        = vv :: pp :: cc :: ll :: toUint8 ((ls : Int) + 63 * 4)
          :: toUint8 ((nbS : Int) + 7 * 32)
          :: sps.length / 256 :: sps.length % 256
          :: (sps ++ toUint8 (nbP : Int)
              :: pps.length / 256 :: pps.length % 256 :: pps) := by
      simp [extradataBytes, mkSingleBox, nalUnitsBytes, e1, e2, t0, t1, t2, t3]
    refine ⟨_, getExtradata_ok true _ hwf, ?_, ?_, ?_, ?_, ?_, ?_⟩
    · rw [hsh]
      simp
      omega
    · rw [hsh]
      rfl
    · rw [hsh]
      simp [List.getD]
      omega
    · rw [hsh]
      exact listTakeAppendLen sps _
    · rw [hsh]
      have hd : (sps ++ toUint8 (nbP : Int)
          :: pps.length / 256 :: pps.length % 256 :: pps).drop sps.length
          = toUint8 (nbP : Int) :: pps.length / 256 :: pps.length % 256 :: pps := by
        simpa using listDropAppendLen sps
          (toUint8 (nbP : Int) :: pps.length / 256 :: pps.length % 256 :: pps) 0
      rw [show ((vv :: pp :: cc :: ll :: toUint8 ((ls : Int) + 63 * 4)
          :: toUint8 ((nbS : Int) + 7 * 32)
          :: sps.length / 256 :: sps.length % 256
          :: (sps ++ toUint8 (nbP : Int)
              :: pps.length / 256 :: pps.length % 256 :: pps)).drop 8)
          = sps ++ toUint8 (nbP : Int)
              :: pps.length / 256 :: pps.length % 256 :: pps from rfl]
      rw [hd]
      simp [List.getD]
      omega
    · rw [hsh]
      have hd : (sps ++ toUint8 (nbP : Int)
          :: pps.length / 256 :: pps.length % 256 :: pps).drop sps.length
          = toUint8 (nbP : Int) :: pps.length / 256 :: pps.length % 256 :: pps := by
        simpa using listDropAppendLen sps
          (toUint8 (nbP : Int) :: pps.length / 256 :: pps.length % 256 :: pps) 0
      rw [show ((vv :: pp :: cc :: ll :: toUint8 ((ls : Int) + 63 * 4)
          :: toUint8 ((nbS : Int) + 7 * 32)
          :: sps.length / 256 :: sps.length % 256
          :: (sps ++ toUint8 (nbP : Int)
              :: pps.length / 256 :: pps.length % 256 :: pps)).drop 8)
          = sps ++ toUint8 (nbP : Int)
              :: pps.length / 256 :: pps.length % 256 :: pps from rfl]
      rw [hd]
      rfl

/-- Witness for claim C6 at a concrete record with one 3-byte SPS and
one 2-byte PPS. -/
theorem getExtradata_size_and_roundtrip_witness :
    (∃ out,
      getExtradata true (mkSingleBox 1 66 192 30 3 1 1 [9, 8, 7] [6, 5]) = .ok out
      ∧ out.length = specExtradataSize (mkSingleBox 1 66 192 30 3 1 1 [9, 8, 7] [6, 5]))
    ∧ (∃ out,
      getExtradata true (mkSingleBox 1 66 192 30 3 1 1 [9, 8, 7] [6, 5]) = .ok out
      ∧ out.length = 7 + (2 + ([9, 8, 7] : List Nat).length)
          + (2 + ([6, 5] : List Nat).length)
      ∧ out.take 4 = [1, 66, 192, 30]
      ∧ 256 * out.getD 6 0 + out.getD 7 0 = ([9, 8, 7] : List Nat).length
      ∧ (out.drop 8).take ([9, 8, 7] : List Nat).length = [9, 8, 7]
      ∧ 256 * ((out.drop 8).drop ([9, 8, 7] : List Nat).length).getD 1 0
          + ((out.drop 8).drop ([9, 8, 7] : List Nat).length).getD 2 0
            = ([6, 5] : List Nat).length
      ∧ ((out.drop 8).drop ([9, 8, 7] : List Nat).length).drop 3 = [6, 5]) :=
  ⟨getExtradata_size_and_roundtrip.1 true
      (mkSingleBox 1 66 192 30 3 1 1 [9, 8, 7] [6, 5]) (by decide),
   getExtradata_size_and_roundtrip.2 1 66 192 30 3 1 1 [9, 8, 7] [6, 5]
      (by decide) (by decide) (by decide) (by decide) (by decide) (by decide)⟩

/-- Triple-equals is reflexive away from NaN. -/
theorem jseq_refl (p : JSNum) (hp : p.isNaN = false) : JSNum.eq p p = true := by
  cases p <;> simp_all [JSNum.eq, JSNum.isNaN]

/-- A concrete controller state used to instantiate theorems. -/
def sampleState : FlooowState :=
  { videoProgress := .num 0, currentTime := .num 0, targetTime := .num 0,
    videoCurrentTime := .num 2, videoPaused := true,
    videoPlaybackRate := .num 1, videoDuration := .num 10,
    frameRate := .num 0, hasCanvas := false, isSafari := false,
    lastPaintArg := .num 0, transitioningRaf := none, pendingRafs := [],
    nextRafId := 0, windowResizeListener := true, wrapperCleared := false }

/-- A controller state in which the session continuation with id 5 is
pending. -/
def pendingSessionState : FlooowState :=
  { sampleState with
    transitioningRaf := some 5
    pendingRafs := [5]
    nextRafId := 6 }

/-- Claim C9: setVideoProgress is idempotent on repeated identical
input — a second call with the progress value that was just accepted
leaves the whole state unchanged (videoProgress, currentTime,
targetTime untouched) and schedules no new transition session. NaN is
excluded because it is not a progress value and NaN never
triple-equals itself. -/
theorem setVideoProgress_idempotent (s : FlooowState) (p : JSNum)
    (hp : p.isNaN = false) :
    setVideoProgress (setVideoProgress s p) p = setVideoProgress s p := by
  have hrefl := jseq_refl p hp
  by_cases h : JSNum.eq s.videoProgress p = true
  · simp [setVideoProgress, h]
  · simp [setVideoProgress, h, playVideoTo, rafRequest, hrefl]

/-- Witness for claim C9 at p = 1/2 on a concrete state. -/
theorem setVideoProgress_idempotent_witness :
    setVideoProgress (setVideoProgress sampleState (.num (1 / 2))) (.num (1 / 2))
      = setVideoProgress sampleState (.num (1 / 2)) :=
  setVideoProgress_idempotent sampleState (.num (1 / 2)) (by decide)

/-- Claim C1 counterexample: in a state with the session continuation
id 5 pending, accepting a fresh progress value leaves continuation 5
scheduled (the call schedules id 6 on top of it rather than cancelling
5), and destroy also leaves continuation 5 scheduled and the session
handle untouched. -/
theorem setVideoProgress_destroy_no_cancel_example :
    (setVideoProgress pendingSessionState (.num (1 / 2))).pendingRafs = [5, 6]
    ∧ (destroy pendingSessionState).pendingRafs = [5]
    ∧ (destroy pendingSessionState).transitioningRaf = some 5 := by
  refine ⟨?_, rfl, rfl⟩
  simp [setVideoProgress, pendingSessionState, sampleState, playVideoTo,
    rafRequest, JSNum.eq]

/-- Claim C1 (amended): neither accepting a new progress value nor
calling destroy cancels a pending scheduled continuation: every
continuation pending before the call is still pending afterwards (a
superseding call merely schedules an additional one), and destroy
leaves both the pending continuations and the session handle
untouched. Only the termination branch inside an update step cancels
the scheduled continuation. -/
theorem setVideoProgress_destroy_do_not_cancel (s : FlooowState) (p : JSNum)
    (id : Nat) (h : id ∈ s.pendingRafs) :
    id ∈ (setVideoProgress s p).pendingRafs
    ∧ (destroy s).pendingRafs = s.pendingRafs
    ∧ (destroy s).transitioningRaf = s.transitioningRaf := by
  refine ⟨?_, rfl, rfl⟩
  by_cases hc : JSNum.eq s.videoProgress p = true
  · simpa [setVideoProgress, hc] using h
  · simp [setVideoProgress, hc, playVideoTo, rafRequest]
    exact Or.inl h

/-- Witness for claim C1 (amended) at the concrete state with pending
continuation 5. -/
theorem setVideoProgress_destroy_do_not_cancel_witness :
    5 ∈ (setVideoProgress pendingSessionState (.num (1 / 2))).pendingRafs
    ∧ (destroy pendingSessionState).pendingRafs = pendingSessionState.pendingRafs
    ∧ (destroy pendingSessionState).transitioningRaf
        = pendingSessionState.transitioningRaf :=
  setVideoProgress_destroy_do_not_cancel pendingSessionState (.num (1 / 2)) 5
    (by decide)

/-- Claim C2 counterexample: with the decode pipeline disabled by the
useWebCodec option, a successful construction never invokes onReady —
the decode method returns before the notification. -/
theorem onReady_zero_when_webcodec_disabled :
    (decodeVideoRun false true true (.success 5)).onReadyCalls = 0 := by decide

/-- Claim C2 (amended): when useWebCodec is enabled (and the src
survived construction validation), the onReady notification fires
exactly once whatever the decode outcome — failure, empty result or
success; when useWebCodec is disabled, the decode method returns early
and onReady never fires. -/
theorem onReady_exactly_once_iff_webcodec (outcome : DecodeOutcome) :
    (decodeVideoRun true true true outcome).onReadyCalls = 1
    ∧ (decodeVideoRun false true true outcome).onReadyCalls = 0 := by
  cases outcome with
  | failure => exact ⟨rfl, rfl⟩
  | success k =>
    by_cases h : k = 0 <;> simp [decodeVideoRun, h]

/-- Evaluated form of a stopping update step: the video is paused and
the scheduled continuation, when present, is cancelled and the session
handle cleared. -/
theorem tick_stop_eq (fw : Bool) (s : FlooowState)
    (hs : stopCondition fw s = true) :
    tick fw s = (match s.transitioningRaf with
      | some id =>
        { rafCancel { s with videoPaused := true } id with transitioningRaf := none }
      | none => { s with videoPaused := true }) := by
  cases h : s.transitioningRaf with
  | none => simp [tick, hs, h]
  | some id => simp [tick, hs, h]

/-- A non-stopping update step always schedules the next continuation
under the fresh id and stores it as the session handle. -/
theorem tick_nonstop_raf (fw : Bool) (s : FlooowState)
    (hns : stopCondition fw s = false) :
    (tick fw s).transitioningRaf = some s.nextRafId
    ∧ s.nextRafId ∈ (tick fw s).pendingRafs
    ∧ (tick fw s).nextRafId = s.nextRafId + 1 := by
  simp only [tick, hns, Bool.false_eq_true, if_false]
  split_ifs <;> simp [rafRequest, List.mem_append]

/-- Claim C4 (amended): an update step stops — pausing the video,
cancelling the scheduled continuation and clearing the session — if
and only if targetTime is NaN, or |targetTime − currentTime| is below
frameThreshold, or motion has overshot the target direction-aware; in
particular a NaN target is an immediate clean stop. A target of
±Infinity is not by itself a stop: the step clamps it into range and
continues. -/
theorem tick_stop_iff_nan_threshold_overshoot (fw : Bool) (s : FlooowState) :
    ((tick fw s).transitioningRaf = none
      ↔ (s.targetTime.isNaN = true
          ∨ JSNum.lt (JSNum.abs (JSNum.sub s.targetTime s.currentTime))
              frameThreshold = true
          ∨ (if fw then JSNum.le s.targetTime s.currentTime
             else JSNum.le s.currentTime s.targetTime) = true))
    ∧ (stopCondition fw s = true →
        (tick fw s).videoPaused = true
        ∧ (tick fw s).nextRafId = s.nextRafId
        ∧ (tick fw s).pendingRafs
            = (match s.transitioningRaf with
               | some id => s.pendingRafs.filter (fun x => x ≠ id)
               | none => s.pendingRafs)) := by
  have hb : stopCondition fw s = true
      ↔ (s.targetTime.isNaN = true
          ∨ JSNum.lt (JSNum.abs (JSNum.sub s.targetTime s.currentTime))
              frameThreshold = true
          ∨ (if fw then JSNum.le s.targetTime s.currentTime
             else JSNum.le s.currentTime s.targetTime) = true) := by
    simp only [stopCondition, Bool.or_eq_true, or_assoc]
  constructor
  · by_cases hc : stopCondition fw s = true
    · have hres : (tick fw s).transitioningRaf = none := by
        rw [tick_stop_eq fw s hc]
        cases h : s.transitioningRaf <;> simp [rafCancel, h]
      rw [hres]
      exact ⟨fun _ => hb.mp hc, fun _ => rfl⟩
    · have hf : stopCondition fw s = false := by
        revert hc
        cases stopCondition fw s <;> simp
      have h1 := (tick_nonstop_raf fw s hf).1
      rw [h1]
      constructor
      · intro hcontra
        exact absurd hcontra (by simp)
      · intro hr
        exact absurd (hb.mpr hr) hc
  · intro hc
    rw [tick_stop_eq fw s hc]
    cases h : s.transitioningRaf <;> simp [rafCancel, h]

/-- A controller state whose session pursues a target of +Infinity. -/
def infTargetState : FlooowState :=
  { sampleState with
    targetTime := .posInf
    videoPaused := false }

/-- Claim C4 counterexample: +Infinity is not a finite number, yet the
update step does not stop: it leaves the video unpaused and schedules
the next continuation instead of cancelling. -/
theorem tick_infinite_target_no_stop :
    JSNum.isFinite infTargetState.targetTime = false
    ∧ (tick true infTargetState).transitioningRaf = some 0
    ∧ (tick true infTargetState).videoPaused = false
    ∧ (tick true infTargetState).nextRafId = 1 := by
  refine ⟨rfl, ?_, ?_, ?_⟩ <;>
    norm_num [tick, stopCondition, infTargetState, sampleState, rafRequest,
      JSNum.lt, JSNum.le, JSNum.abs, JSNum.sub, JSNum.mul, JSNum.isNaN,
      jsMin, jsMax, transitionSpeed, frameThreshold]

/-- A controller state whose session pursues a NaN target while
continuation 5 is pending. -/
def nanTargetState : FlooowState :=
  { pendingSessionState with targetTime := .nan }

/-- Witness for claim C4 on the NaN-target state with a pending
continuation: the step stops and cancels it. -/
theorem tick_stop_iff_witness :
    ((tick true nanTargetState).transitioningRaf = none
      ↔ (nanTargetState.targetTime.isNaN = true
          ∨ JSNum.lt (JSNum.abs (JSNum.sub nanTargetState.targetTime
              nanTargetState.currentTime)) frameThreshold = true
          ∨ (if true then JSNum.le nanTargetState.targetTime nanTargetState.currentTime
             else JSNum.le nanTargetState.currentTime nanTargetState.targetTime) = true))
    ∧ ((tick true nanTargetState).videoPaused = true
        ∧ (tick true nanTargetState).nextRafId = nanTargetState.nextRafId
        ∧ (tick true nanTargetState).pendingRafs
            = (match nanTargetState.transitioningRaf with
               | some id => nanTargetState.pendingRafs.filter (fun x => x ≠ id)
               | none => nanTargetState.pendingRafs)) :=
  ⟨(tick_stop_iff_nan_threshold_overshoot true nanTargetState).1,
   (tick_stop_iff_nan_threshold_overshoot true nanTargetState).2 (by decide)⟩

/-- The clamped target an update step computes: first pulled down to
the duration, then pulled up to 0, in that order, exactly as the two
sequential assignments in the source do. -/
def clampTT (t d : JSNum) : JSNum :=
  if JSNum.lt (if JSNum.lt d t then d else t) (.num 0) then .num 0
  else (if JSNum.lt d t then d else t)

/-- Field-level evaluation of a non-stopping update step: the target
is clamped, frame-buffer and direct-seek motion land on the clamped
target, and the rate-modulated branch applies the clamp formula when
it is not NaN. -/
theorem tick_nonstop_fields (fw : Bool) (s : FlooowState)
    (hns : stopCondition fw s = false) :
    (tick fw s).targetTime = clampTT s.targetTime s.videoDuration
    ∧ (s.hasCanvas = true →
        (tick fw s).currentTime = clampTT s.targetTime s.videoDuration)
    ∧ (s.hasCanvas = false → (s.isSafari = true ∨ fw = false) →
        (tick fw s).videoPaused = true
        ∧ (tick fw s).currentTime = clampTT s.targetTime s.videoDuration
        ∧ (tick fw s).videoCurrentTime = clampTT s.targetTime s.videoDuration)
    ∧ (s.hasCanvas = false → s.isSafari = false → fw = true →
        (tick fw s).currentTime = s.videoCurrentTime
        ∧ ((jsMax (jsMin (jsMin (JSNum.mul (JSNum.sub
              (clampTT s.targetTime s.videoDuration) s.currentTime) (.num 4))
              transitionSpeed) (.num 16)) (.num 1)).isNaN = false →
            (tick fw s).videoPlaybackRate
              = jsMax (jsMin (jsMin (JSNum.mul (JSNum.sub
                  (clampTT s.targetTime s.videoDuration) s.currentTime) (.num 4))
                  transitionSpeed) (.num 16)) (.num 1)
            ∧ (tick fw s).videoPaused = false)) := by
  simp only [tick, hns, Bool.false_eq_true, if_false, clampTT]
  split_ifs <;> simp_all [rafRequest] <;>
    (intro hsf hfw
     rcases (by assumption : s.isSafari = true ∨ fw = false) with hx | hx <;>
       simp_all)

/-- A non-stopping step never pursues a NaN target. -/
theorem target_not_nan_of_nonstop (fw : Bool) (s : FlooowState)
    (hns : stopCondition fw s = false) : s.targetTime.isNaN = false := by
  by_contra h
  have ht : s.targetTime.isNaN = true := by simpa using h
  unfold stopCondition at hns
  rw [ht] at hns
  simp at hns

/-- A target above a nonnegative duration clamps down to the
duration. -/
theorem clampTT_high (tt d : JSNum) (hd0 : JSNum.lt d (.num 0) = false)
    (h : JSNum.lt d tt = true) : clampTT tt d = d := by
  simp [clampTT, h, hd0]

/-- A target below 0 that is not above the duration clamps up to 0. -/
theorem clampTT_low (tt d : JSNum) (h : JSNum.lt tt (.num 0) = true)
    (hdt : JSNum.lt d tt = false) : clampTT tt d = .num 0 := by
  simp [clampTT, hdt, h]

/-- For a nonnegative finite duration and a non-NaN target, the
clamped target lies in [0, duration]. -/
theorem clampTT_bounds (tt : JSNum) (D : Rat) (hD0 : 0 ≤ D)
    (hnan : tt.isNaN = false) :
    JSNum.le (.num 0) (clampTT tt (.num D)) = true
    ∧ JSNum.le (clampTT tt (.num D)) (.num D) = true := by
  cases tt with
  | nan => simp [JSNum.isNaN] at hnan
  | posInf =>
    have h1 : JSNum.lt (.num D) .posInf = true := rfl
    have h2 : JSNum.lt (.num D) (.num 0) = false := by
      simp [JSNum.lt]
      linarith
    simp [clampTT, h1, h2, JSNum.le, hD0]
  | negInf =>
    have h1 : JSNum.lt (.num D) .negInf = false := rfl
    have h2 : JSNum.lt .negInf (.num 0) = true := rfl
    simp [clampTT, h1, h2, JSNum.le, hD0]
  | num a =>
    by_cases h1 : D < a
    · have e1 : JSNum.lt (.num D) (.num a) = true := by simp [JSNum.lt, h1]
      have e2 : JSNum.lt (.num D) (.num 0) = false := by
        simp [JSNum.lt]
        linarith
      simp [clampTT, e1, e2, JSNum.le, hD0]
    · have e1 : JSNum.lt (.num D) (.num a) = false := by simp [JSNum.lt, h1]
      by_cases h2 : a < 0
      · have e2 : JSNum.lt (.num a) (.num 0) = true := by simp [JSNum.lt, h2]
        simp [clampTT, e1, e2, JSNum.le, hD0]
      · have e2 : JSNum.lt (.num a) (.num 0) = false := by simp [JSNum.lt, h2]
        simp [clampTT, e1, e2, JSNum.le]
        constructor <;> linarith

/-- Claim C8: in every update step that does not stop, the target is
clamped into [0, duration] before motion is computed — a target above
the duration becomes the duration, one below 0 becomes 0, the stored
target always lands in [0, duration], and frame-buffer motion jumps
exactly to the clamped target. -/
theorem tick_clamps_target (fw : Bool) (s : FlooowState) (D : Rat)
    (hD : s.videoDuration = .num D) (hD0 : 0 ≤ D)
    (hns : stopCondition fw s = false) :
    (JSNum.lt s.videoDuration s.targetTime = true →
        (tick fw s).targetTime = s.videoDuration)
    ∧ (JSNum.lt s.targetTime (.num 0) = true →
        (tick fw s).targetTime = .num 0)
    ∧ JSNum.le (.num 0) (tick fw s).targetTime = true
    ∧ JSNum.le (tick fw s).targetTime s.videoDuration = true
    ∧ (s.hasCanvas = true → (tick fw s).currentTime = (tick fw s).targetTime) := by
  obtain ⟨htt, hcv, _, _⟩ := tick_nonstop_fields fw s hns
  have hnan := target_not_nan_of_nonstop fw s hns
  have hd0 : JSNum.lt (.num D) (.num 0) = false := by
    simp [JSNum.lt]
    linarith
  have hb := clampTT_bounds s.targetTime D hD0 hnan
  refine ⟨?_, ?_, ?_, ?_, fun hc => by rw [hcv hc, htt]⟩
  · intro h
    rw [hD] at h
    rw [htt, hD]
    exact clampTT_high s.targetTime (.num D) hd0 h
  · intro h
    have hdt : JSNum.lt (.num D) s.targetTime = false := by
      cases ht : s.targetTime <;> simp_all [JSNum.lt] <;> linarith
    rw [htt, hD]
    exact clampTT_low s.targetTime (.num D) h hdt
  · rw [htt, hD]
    exact hb.1
  · rw [htt, hD]
    exact hb.2

/-- Witness for claim C8: duration 10, requested target 15 — the step
uses 10, inside [0, 10]. -/
theorem tick_clamps_target_witness :
    (tick true { sampleState with targetTime := .num 15 }).targetTime
      = ({ sampleState with targetTime := .num 15 } : FlooowState).videoDuration
    ∧ JSNum.le (.num 0)
        (tick true { sampleState with targetTime := .num 15 }).targetTime = true
    ∧ JSNum.le (tick true { sampleState with targetTime := .num 15 }).targetTime
        ({ sampleState with targetTime := .num 15 } : FlooowState).videoDuration
          = true := by
  have h := tick_clamps_target true { sampleState with targetTime := .num 15 }
    10 rfl (by norm_num)
    (by norm_num [stopCondition, sampleState, JSNum.isNaN, JSNum.sub,
      JSNum.abs, JSNum.lt, JSNum.le, frameThreshold])
  exact ⟨h.1 (by norm_num [sampleState, JSNum.lt]), h.2.2.1, h.2.2.2.1⟩

/-- Math.min on finite values is the rational minimum. -/
theorem jsMin_num (a b : Rat) : jsMin (.num a) (.num b) = .num (min a b) := by
  simp [jsMin, JSNum.isNaN, JSNum.lt, min_def]
  split_ifs <;> simp_all <;> linarith

/-- Math.max on finite values is the rational maximum. -/
theorem jsMax_num (a b : Rat) : jsMax (.num a) (.num b) = .num (max a b) := by
  simp [jsMax, JSNum.isNaN, JSNum.lt, max_def]
  split_ifs <;> simp_all <;> linarith

/-- Math.min over the model is associative. -/
theorem jsMin_assoc (a b c : JSNum) :
    jsMin (jsMin a b) c = jsMin a (jsMin b c) := by
  cases a <;> cases b <;> cases c <;>
    simp_all [jsMin, JSNum.isNaN, JSNum.lt] <;>
    split_ifs <;> simp_all <;> linarith

/-- The clamped target is never NaN when the raw target is not. -/
theorem clampTT_not_nan (t d : JSNum) (ht : t.isNaN = false) :
    (clampTT t d).isNaN = false := by
  by_cases hdt : JSNum.lt d t = true
  · have hd : d.isNaN = false := by
      cases d <;> simp_all [JSNum.lt, JSNum.isNaN]
    simp [clampTT, hdt]
    split_ifs
    · rfl
    · exact hd
  · have hdt2 : JSNum.lt d t = false := by
      revert hdt
      cases JSNum.lt d t <;> simp
    simp [clampTT, hdt2]
    split_ifs
    · rfl
    · exact ht

/-- Subtracting a finite number and multiplying by 4 keeps a non-NaN
value non-NaN. -/
theorem subnum_mul4_not_nan (a : JSNum) (c : Rat) (ha : a.isNaN = false) :
    (JSNum.mul (JSNum.sub a (.num c)) (.num 4)).isNaN = false := by
  cases a with
  | nan => simp [JSNum.isNaN] at ha
  | posInf => norm_num [JSNum.sub, JSNum.mul, JSNum.isNaN]
  | negInf => norm_num [JSNum.sub, JSNum.mul, JSNum.isNaN]
  | num x => norm_num [JSNum.sub, JSNum.mul, JSNum.isNaN]

/-- The rate formula of the source, applied to a non-NaN distance
term, always lands in [1, min(transitionSpeed, 16)] and is never
NaN. -/
theorem rate_bounds (X : JSNum) (hX : X.isNaN = false) :
    JSNum.le (.num 1)
        (jsMax (jsMin (jsMin X transitionSpeed) (.num 16)) (.num 1)) = true
    ∧ JSNum.le (jsMax (jsMin (jsMin X transitionSpeed) (.num 16)) (.num 1))
        (jsMin transitionSpeed (.num 16)) = true
    ∧ (jsMax (jsMin (jsMin X transitionSpeed) (.num 16)) (.num 1)).isNaN
        = false := by
  cases X with
  | nan => simp [JSNum.isNaN] at hX
  | posInf =>
    refine ⟨?_, ?_, ?_⟩ <;>
      norm_num [jsMin, jsMax, transitionSpeed, JSNum.isNaN, JSNum.lt, JSNum.le]
  | negInf =>
    refine ⟨?_, ?_, ?_⟩ <;>
      norm_num [jsMin, jsMax, transitionSpeed, JSNum.isNaN, JSNum.lt, JSNum.le]
  | num x =>
    rw [show transitionSpeed = JSNum.num 8 from rfl]
    simp only [jsMin_num, jsMax_num]
    refine ⟨?_, ?_, rfl⟩
    · simp [JSNum.le]
    · simp [JSNum.le]

/-- Claim C7: in an update step with no frame buffer that proceeds, a
backward transition takes direct-seek mode regardless of platform (the
video is paused and its time position written directly), while a
forward transition on a non-WebKit platform takes rate-modulated mode:
the playback rate equals clamp(remainingDistance * 4, 1,
min(transitionSpeed, 16)) and therefore always lies between 1 and
min(transitionSpeed, 16), the video plays, and the position is read
back from the element. -/
theorem tick_mode_selection (fw : Bool) (s : FlooowState)
    (hnc : s.hasCanvas = false) (hns : stopCondition fw s = false)
    (c : Rat) (hcur : s.currentTime = .num c) :
    (fw = false →
      (tick fw s).videoPaused = true
      ∧ (tick fw s).currentTime = (tick fw s).targetTime
      ∧ (tick fw s).videoCurrentTime = (tick fw s).targetTime)
    ∧ (fw = true → s.isSafari = false →
      (tick fw s).videoPlaybackRate
        = jsMax (jsMin (JSNum.mul (JSNum.sub (tick fw s).targetTime s.currentTime)
            (.num 4)) (jsMin transitionSpeed (.num 16))) (.num 1)
      ∧ JSNum.le (.num 1) (tick fw s).videoPlaybackRate = true
      ∧ JSNum.le (tick fw s).videoPlaybackRate
          (jsMin transitionSpeed (.num 16)) = true
      ∧ (tick fw s).videoPaused = false
      ∧ (tick fw s).currentTime = s.videoCurrentTime) := by
  obtain ⟨htt, _, hds, hrate⟩ := tick_nonstop_fields fw s hns
  constructor
  · intro hfw
    obtain ⟨hp, hcur2, hvc⟩ := hds hnc (Or.inr hfw)
    exact ⟨hp, by rw [hcur2, htt], by rw [hvc, htt]⟩
  · intro hfw hsa
    obtain ⟨hct, himp⟩ := hrate hnc hsa hfw
    have hnan : s.targetTime.isNaN = false := target_not_nan_of_nonstop fw s hns
    have hXnan : (JSNum.mul (JSNum.sub (clampTT s.targetTime s.videoDuration)
        s.currentTime) (.num 4)).isNaN = false := by
      rw [hcur]
      exact subnum_mul4_not_nan _ c (clampTT_not_nan _ _ hnan)
    have hrb := rate_bounds _ hXnan
    obtain ⟨hpr, hpaused⟩ := himp hrb.2.2
    refine ⟨?_, ?_, ?_, hpaused, hct⟩
    · rw [hpr, htt, jsMin_assoc]
    · rw [hpr]
      exact hrb.1
    · rw [hpr]
      exact hrb.2.1

/-- Witness for claim C7: a backward step on a concrete state takes
direct-seek mode, and a forward step with remaining distance 5 takes
rate-modulated mode, with the rate landing at 8. -/
theorem tick_mode_selection_witness :
    ((tick false { sampleState with targetTime := .num (-5) }).videoPaused = true
      ∧ (tick false { sampleState with targetTime := .num (-5) }).currentTime
          = (tick false { sampleState with targetTime := .num (-5) }).targetTime
      ∧ (tick false { sampleState with targetTime := .num (-5) }).videoCurrentTime
          = (tick false { sampleState with targetTime := .num (-5) }).targetTime)
    ∧ ((tick true { sampleState with targetTime := .num 5 }).videoPlaybackRate
        = jsMax (jsMin (JSNum.mul (JSNum.sub
            (tick true { sampleState with targetTime := .num 5 }).targetTime
            ({ sampleState with targetTime := .num 5 } : FlooowState).currentTime)
            (.num 4)) (jsMin transitionSpeed (.num 16))) (.num 1)
      ∧ JSNum.le (.num 1)
          (tick true { sampleState with targetTime := .num 5 }).videoPlaybackRate
            = true
      ∧ JSNum.le (tick true { sampleState with targetTime := .num 5 }).videoPlaybackRate
          (jsMin transitionSpeed (.num 16)) = true
      ∧ (tick true { sampleState with targetTime := .num 5 }).videoPaused = false
      ∧ (tick true { sampleState with targetTime := .num 5 }).currentTime
          = ({ sampleState with targetTime := .num 5 } : FlooowState).videoCurrentTime) :=
  ⟨(tick_mode_selection false { sampleState with targetTime := .num (-5) } rfl
      (by norm_num [stopCondition, sampleState, JSNum.isNaN, JSNum.sub,
        JSNum.abs, JSNum.lt, JSNum.le, frameThreshold]) 0 rfl).1 rfl,
   (tick_mode_selection true { sampleState with targetTime := .num 5 } rfl
      (by norm_num [stopCondition, sampleState, JSNum.isNaN, JSNum.sub,
        JSNum.abs, JSNum.lt, JSNum.le, frameThreshold]) 0 rfl).2 rfl rfl⟩
